import Mathlib

/-!
Verification development for the `Yeddo/web-scraper` repository
(`src/scraper.py`).

The Python source is shallowly embedded: pure helpers become Lean
functions over `String`/`List Char`, the network and the HTML parser
(`requests`, Playwright, BeautifulSoup) are external collaborators and
are modelled as explicit oracle parameters, and the crawl loop becomes a
well-founded recursive function over the frontier/visited/pages state.
URL handling follows CPython's `urllib.parse` (`urlparse`, `urljoin`,
`urlunparse`); the model covers URL strings that do not contain the
control characters stripped by recent CPython and that do not trigger
the unbalanced-bracket `ValueError` (none of the URLs considered here
do).
-/

namespace WebScraper

/-- Python `str.startswith`, modelled on character lists. -/
def pyStartswith (s pre : String) : Bool :=
  pre.data.isPrefixOf s.data

/-- Python substring containment `pat in s`, on character lists.
The empty pattern is contained in every string, as in Python. -/
def listContainsSub (pat : List Char) : List Char → Bool
  | [] => pat.isEmpty
  | x :: xs => pat.isPrefixOf (x :: xs) || listContainsSub pat xs

/-- Python `pat in s` for strings. -/
def strContainsSub (s pat : String) : Bool :=
  listContainsSub pat.data s.data

/-- Python `str.lower`, on character lists (the strings involved are
ASCII, where `Char.toLower` agrees with Python). -/
def pyLower (s : String) : String :=
  String.mk (s.data.map Char.toLower)

/-- Python `str.strip()`: drop whitespace from both ends. -/
def pyStrip (s : String) : String :=
  String.mk (((s.data.dropWhile Char.isWhitespace).reverse.dropWhile
    Char.isWhitespace).reverse)

/-- Python `str.split(c)` (split on every occurrence of one character,
keeping empty pieces; the result is never empty). -/
def splitOnCharAux (c : Char) : List Char → List Char → List String
  | [], acc => [String.mk acc.reverse]
  | x :: xs, acc =>
    if x = c then String.mk acc.reverse :: splitOnCharAux c xs []
    else splitOnCharAux c xs (x :: acc)

/-- Python `str.split(c)` on a character list. -/
def splitOnChar (l : List Char) (c : Char) : List String :=
  splitOnCharAux c l []

/-- Characters allowed in a URL scheme: `string.ascii_letters`,
digits and `+-.` (CPython `urllib.parse.scheme_chars`). -/
def schemeChar (c : Char) : Bool :=
  c.isUpper || c.isLower || c.isDigit || c = '+' || c = '-' || c = '.'

/-- The six components returned by `urllib.parse.urlparse`. -/
structure UrlParts where
  scheme : String
  netloc : String
  path : String
  params : String
  query : String
  fragment : String
deriving DecidableEq

/-- Scheme detection of CPython `urlsplit`: if the first `:` is
preceded by a nonempty run of scheme characters starting with an ASCII
letter, split it off and lowercase it. Returns `("", url)` otherwise. -/
def splitScheme (url : List Char) : String × List Char :=
  match url.findIdx? (fun c => c = ':') with
  | some i =>
    if 0 < i && (url.headD ' ').isAlpha && (url.take i).all schemeChar then
      (String.mk ((url.take i).map Char.toLower), url.drop (i + 1))
    else ("", url)
  | none => ("", url)

/-- CPython `_splitnetloc` (after the leading `//` has been dropped):
the netloc extends to the first `/`, `?` or `#`. -/
def splitNetlocChars (rest : List Char) : List Char × List Char :=
  let delim := rest.findIdx (fun c => c = '/' || c = '?' || c = '#')
  (rest.take delim, rest.drop delim)

/-- Split a character list at the first occurrence of `c`; the second
component is empty when `c` does not occur (as in CPython, where the
query/fragment then stay `''`). -/
def splitAtFirstChar (l : List Char) (c : Char) : List Char × List Char :=
  match l.findIdx? (fun x => x = c) with
  | some i => (l.take i, l.drop (i + 1))
  | none => (l, [])

/-- CPython `urllib.parse.urlsplit` (with `allow_fragments=True`):
scheme, `//netloc`, then fragment split before query split.
`defaultScheme` is the `scheme` parameter of `urlsplit`. -/
def pyUrlsplit (urlS defaultScheme : String) : UrlParts :=
  let url := urlS.data
  let (sch, url) := splitScheme url
  let sch := if sch = "" then defaultScheme else sch
  let (netloc, url) :=
    if url.take 2 = ['/', '/'] then splitNetlocChars (url.drop 2)
    else ([], url)
  let (url, fragment) := splitAtFirstChar url '#'
  let (url, query) := splitAtFirstChar url '?'
  { scheme := sch, netloc := String.mk netloc, path := String.mk url,
    params := "", query := String.mk query, fragment := String.mk fragment }

/-- CPython `_splitparams`: split `;params` out of the last path
segment (only looking after the last `/` when one is present). -/
def splitParamsChars (url : List Char) : List Char × List Char :=
  if url.contains '/' then
    let j := url.length - 1 - (url.reverse.findIdx (fun c => c = '/'))
    match (url.drop j).findIdx? (fun c => c = ';') with
    | some k => (url.take (j + k), url.drop (j + k + 1))
    | none => (url, [])
  else
    match url.findIdx? (fun c => c = ';') with
    | some i => (url.take i, url.drop (i + 1))
    | none => (url, [])

/-- CPython `urllib.parse.urlparse` with an explicit default scheme:
`urlsplit` plus the `;params` split on the path. -/
def pyUrlparse2 (url defaultScheme : String) : UrlParts :=
  let s := pyUrlsplit url defaultScheme
  if s.path.data.contains ';' then
    let pp := splitParamsChars s.path.data
    { s with path := String.mk pp.1, params := String.mk pp.2 }
  else s

/-- CPython `urllib.parse.urlparse(url)` (empty default scheme). -/
def pyUrlparse (url : String) : UrlParts :=
  pyUrlparse2 url ""

/-- CPython `urllib.parse.urlunsplit` on explicit components. -/
def pyUrlunsplit (scheme netloc pathArg query fragment : String) : String :=
  let url := pathArg
  let url :=
    if netloc ≠ "" || url.data.take 2 = ['/', '/'] then
      let url2 := if url ≠ "" && url.data.headD '/' ≠ '/' then "/" ++ url else url
      "//" ++ netloc ++ url2
    else url
  let url := if scheme ≠ "" then scheme ++ ":" ++ url else url
  let url := if query ≠ "" then url ++ "?" ++ query else url
  if fragment ≠ "" then url ++ "#" ++ fragment else url

/-- CPython `urllib.parse.urlunparse` of a six-component value. -/
def pyUrlunparse (u : UrlParts) : String :=
  let pathArg := if u.params ≠ "" then u.path ++ ";" ++ u.params else u.path
  pyUrlunsplit u.scheme u.netloc pathArg u.query u.fragment

/-- CPython `urllib.parse.uses_relative`. -/
def usesRelative : List String :=
  ["", "ftp", "http", "gopher", "nntp", "imap", "wais", "file", "https",
   "shttp", "mms", "prospero", "rtsp", "rtspu", "sftp", "svn", "svn+ssh",
   "ws", "wss"]

/-- CPython `urllib.parse.uses_netloc`. -/
def usesNetloc : List String :=
  ["", "ftp", "http", "gopher", "nntp", "telnet", "imap", "wais", "file",
   "mms", "https", "shttp", "snews", "prospero", "rtsp", "rtspu", "rsync",
   "svn", "svn+ssh", "sftp", "nfs", "git", "git+ssh", "ws", "wss",
   "itms-services"]

/-- The segment-resolution loop of CPython `urljoin`: `..` pops the
accumulated path (ignored on an empty accumulator), `.` is dropped,
anything else is appended. -/
def resolveSegments (segments : List String) : List String :=
  segments.foldl
    (fun acc seg =>
      if seg = ".." then acc.dropLast
      else if seg = "." then acc
      else acc ++ [seg]) []

/-- CPython `urljoin`'s `segments[1:-1] = filter(None, segments[1:-1])`:
drop empty strings strictly between the first and last element. -/
def filterMiddleEmpty : List String → List String
  | [] => []
  | [a] => [a]
  | a :: rest => a :: ((rest.dropLast.filter (fun s => s ≠ "")) ++ [rest.getLastD ""])

/-- CPython `urllib.parse.urljoin(base, url)` (modern CPython ≥ 3.8
algorithm, `allow_fragments=True`). -/
def pyUrljoin (base urlS : String) : String :=
  if base = "" then urlS
  else if urlS = "" then base
  else
    let b := pyUrlparse2 base ""
    let u := pyUrlparse2 urlS b.scheme
    if u.scheme ≠ b.scheme || ¬ usesRelative.contains u.scheme then urlS
    else if usesNetloc.contains u.scheme && u.netloc ≠ "" then
      pyUrlunparse u
    else
      let netloc := if usesNetloc.contains u.scheme then b.netloc else u.netloc
      if u.path = "" && u.params = "" then
        let query := if u.query = "" then b.query else u.query
        pyUrlunparse { scheme := u.scheme, netloc := netloc, path := b.path,
                       params := b.params, query := query, fragment := u.fragment }
      else
        let baseParts0 := splitOnChar b.path.data '/'
        let baseParts :=
          if baseParts0.getLastD "" ≠ "" then baseParts0.dropLast else baseParts0
        let segments :=
          if pyStartswith u.path "/" then splitOnChar u.path.data '/'
          else filterMiddleEmpty (baseParts ++ splitOnChar u.path.data '/')
        let resolved0 := resolveSegments segments
        let resolved :=
          if segments.getLastD "" = "." || segments.getLastD "" = ".." then
            resolved0 ++ [""]
          else resolved0
        let joined := String.intercalate "/" resolved
        let newPath := if joined = "" then "/" else joined
        pyUrlunparse { scheme := u.scheme, netloc := netloc, path := newPath,
                       params := u.params, query := u.query, fragment := u.fragment }

/-- `same_domain` from `src/scraper.py`: compare the `netloc` of the
two URLs (exact string comparison, as in the source). -/
def same_domain (a b : String) : Bool :=
  (pyUrlparse a).netloc == (pyUrlparse b).netloc

/-- The function is_within_prefix from `src/scraper.py`: the path of `url` must
start with the path of the configured prefix URL, as a literal string
comparison. -/
def is_within_prefix (url pfx : String) : Bool :=
  let p := (pyUrlparse pfx).path
  pyStartswith (pyUrlparse url).path p

/-! ## The BeautifulSoup collaborator

BeautifulSoup is an external library; a parsed document is modelled by
the observations the scraper makes of it.  A `parse` oracle of type
`String → Soup` stands for `BeautifulSoup(html, "html.parser")`. -/

/-- Observations of a parsed HTML document:
`anchors` is the list of `href` attribute values of the anchor tags
found by `soup.find_all("a", href=True)`, in document order;
`selectOne sel` is `str(el)` of `soup.select_one(sel)` when an element
matches, else `none`; `body` is `str(soup.body)` when a `body` element
exists; `full` is `str(soup)`; `titleText` is `soup.title.get_text()`
when a `title` element exists. -/
structure Soup where
  anchors : List String
  selectOne : String → Option String
  body : Option String
  full : String
  titleText : Option String

/-- The `skip_patterns` list of `get_links` in `src/scraper.py`. -/
def skipPatterns : List String :=
  ["sign_in", "login", "logout", "recover", "reset", "register", "#"]

/-- `full.split('#')[0]`: everything before the first `#`. -/
def stripFragment (s : String) : String :=
  String.mk (s.data.takeWhile (fun c => c ≠ '#'))

/-- `get_links` from `src/scraper.py`.  The Python function folds the
anchors of the parsed page into a `set`; the set is modelled as a
duplicate-free list in first-insertion order. -/
def get_links (parse : String → Soup) (html base_url : String) : List String :=
  (parse html).anchors.foldl
    (fun out href =>
      if pyStartswith href "#" then out
      else if skipPatterns.any (fun p => strContainsSub (pyLower href) p) then out
      else
        let full := stripFragment (pyUrljoin base_url href)
        if full ∈ out then out else out ++ [full]) []

/-- The selector list of `extract_main_content` in `src/scraper.py`. -/
def selectorsList : List String :=
  ["main", "article", "div.doc-content", "div.content", "div#content",
   "div.article-body"]

/-- The selector loop of `extract_main_content`: return the first
selector match in list order. -/
def firstSelectorMatch (soup : Soup) : List String → Option String
  | [] => none
  | sel :: rest =>
    match soup.selectOne sel with
    | some el => some el
    | none => firstSelectorMatch soup rest

/-- `extract_main_content` from `src/scraper.py`: first matching
selector, else `str(soup.body or soup)` (the body when a body element
exists, else the whole parsed document). -/
def extract_main_content (parse : String → Soup) (html : String) : String :=
  let soup := parse html
  match firstSelectorMatch soup selectorsList with
  | some el => el
  | none =>
    match soup.body with
    | some b => b
    | none => soup.full

/-! ## The fetch layer

`requests.get` and Playwright are external collaborators, modelled as
oracles.  The static oracle receives the full request record that
`fetch_requests` builds, so what is (and is not) transmitted is
explicit; it answers with a network failure or a `(status, text)`
pair.  The rendered strategy (engine start, cookie injection,
navigation, timeout) is one oracle returning the captured markup or a
failure; `fetch`'s `try/except` around it maps any of its failures to
the static fallback. -/

/-- The `HEADERS` constant of `src/scraper.py`. -/
def HEADERS : List (String × String) :=
  [("User-Agent", "WebScraper/1.0 (+https://github.com/Yeddo)")]

/-- An HTTP request as issued by the `requests` collaborator.
`cookiesSent` is the cookie material transmitted with the request
(`κ` is the opaque cookie-jar type). -/
structure HttpRequest (κ : Type) where
  url : String
  headers : List (String × String)
  timeoutSecs : Nat
  cookiesSent : Option κ

/-- The request built by `fetch_requests`:
`requests.get(url, headers=HEADERS, timeout=15)` — no cookie argument,
so no cookie material is transmitted. -/
def staticRequest (κ : Type) (url : String) : HttpRequest κ :=
  { url := url, headers := HEADERS, timeoutSecs := 15, cookiesSent := none }

/-- `fetch_requests` from `src/scraper.py`: issue the GET and
`raise_for_status()` (an error for any 4xx/5xx status). -/
def fetch_requests {κ : Type} (http : HttpRequest κ → Except String (Nat × String))
    (url : String) : Except String String :=
  match http (staticRequest κ url) with
  | .error e => .error e
  | .ok (status, text) =>
    if 400 ≤ status ∧ status < 600 then .error ("HTTP status " ++ toString status)
    else .ok text

/-- `fetch` from `src/scraper.py`.  `renderedFetch url cookies context`
models the whole Playwright branch (both the context-reuse and the
fresh-browser paths); any exception it raises becomes `.error`, which
the `except` clause turns into a single `fetch_requests` call. -/
def fetch {κ γ : Type}
    (renderedFetch : String → Option κ → Option γ → Except String String)
    (http : HttpRequest κ → Except String (Nat × String))
    (url : String) (use_playwright : Bool)
    (cookies : Option κ) (context : Option γ) : Except String String :=
  if use_playwright then
    match renderedFetch url cookies context with
    | .ok html => .ok html
    | .error _ => fetch_requests http url
  else fetch_requests http url

/-! ## The crawl engine

`crawl` from `src/scraper.py`.  `time.sleep(delay)` is a pure side
effect and has no counterpart in the state.  Python's
`if path_prefix and ...` treats `None` and `""` as "no prefix
configured"; the parameter is modelled as `Option String`, with the
empty string handled explicitly.  The `links` set is iterated in the
first-insertion order fixed by `get_links`. -/

/-- A page record `{"url": ..., "title": ..., "html": ...}`. -/
structure Page where
  url : String
  title : String
  html : String
deriving DecidableEq

/-- The guard `not path_prefix or is_within_prefix(url, path_prefix)`
(with `path_prefix` falsy for `None` and for the empty string). -/
def prefixOk (pp : Option String) (url : String) : Bool :=
  match pp with
  | none => true
  | some p => if p = "" then true else is_within_prefix url p

/-- `title.get_text().strip() if title else url` of `src/scraper.py`. -/
def pageTitle (soup : Soup) (url : String) : String :=
  match soup.titleText with
  | some t => pyStrip t
  | none => url

/-- The link-appending loop at the end of a crawl step: the sublist of
`links` that gets appended to the frontier.  Python checks
`l not in to_visit` against the frontier as it grows, i.e. against
`tv` plus the links accepted so far (`acc`). -/
def newLinks (start_url : String) (pp : Option String)
    (seen tv links : List String) : List String :=
  links.foldl
    (fun acc l =>
      if l ∉ seen ∧ l ∉ tv ∧ l ∉ acc ∧ same_domain start_url l = true ∧
          prefixOk pp l = true
      then acc ++ [l] else acc) []

/-- The `while` loop of `crawl` in `src/scraper.py`, over the state
`(seen, to_visit, pages)`.  Each iteration pops the frontier head,
applies the seen/domain/prefix skip checks, fetches, and on success
extracts content, title and links.  Termination: a successful fetch
increases `pages` (bounded by `max_pages`), every other iteration
shortens the frontier. -/
def crawlLoop {κ γ : Type} (parse : String → Soup)
    (renderedFetch : String → Option κ → Option γ → Except String String)
    (http : HttpRequest κ → Except String (Nat × String))
    (start_url : String) (max_pages : Nat) (pp : Option String)
    (use_playwright : Bool) (cookies : Option κ) (context : Option γ) :
    List String → List String → List Page → List Page
  | seen, to_visit, pages =>
    match to_visit with
    | [] => pages
    | url :: rest =>
      if h : pages.length < max_pages then
        if url ∈ seen then
          crawlLoop parse renderedFetch http start_url max_pages pp
            use_playwright cookies context seen rest pages
        else if same_domain start_url url = false then
          crawlLoop parse renderedFetch http start_url max_pages pp
            use_playwright cookies context seen rest pages
        else if prefixOk pp url = false then
          crawlLoop parse renderedFetch http start_url max_pages pp
            use_playwright cookies context seen rest pages
        else
          match fetch renderedFetch http url use_playwright cookies context with
          | .error _ =>
            crawlLoop parse renderedFetch http start_url max_pages pp
              use_playwright cookies context (seen.insert url) rest pages
          | .ok html =>
            let seen2 := seen.insert url
            let soup := parse html
            let pages2 := pages ++
              [{ url := url, title := pageTitle soup url,
                 html := extract_main_content parse html }]
            let added := newLinks start_url pp seen2 rest (get_links parse html url)
            crawlLoop parse renderedFetch http start_url max_pages pp
              use_playwright cookies context seen2 (rest ++ added) pages2
      else pages
termination_by seen to_visit pages => (max_pages - pages.length, to_visit.length)
decreasing_by
  all_goals simp_wf
  · exact Prod.Lex.right _ (by omega)
  · exact Prod.Lex.right _ (by omega)
  · exact Prod.Lex.right _ (by omega)
  · exact Prod.Lex.right _ (by omega)
  · exact Prod.Lex.left _ _ (by omega)

/-- `crawl` from `src/scraper.py`: run the loop from
`seen = set()`, `to_visit = [start_url]`, `pages = []`. -/
def crawl {κ γ : Type} (parse : String → Soup)
    (renderedFetch : String → Option κ → Option γ → Except String String)
    (http : HttpRequest κ → Except String (Nat × String))
    (start_url : String) (max_pages : Nat) (pp : Option String)
    (use_playwright : Bool) (cookies : Option κ) (context : Option γ) :
    List Page :=
  crawlLoop parse renderedFetch http start_url max_pages pp use_playwright
    cookies context [] [start_url] []

/-- Result of an instrumented crawl: the source's final `pages` and
`seen`, plus three ghost observation lists — `deq` (URLs dequeued from
the frontier, in order), `fet` (URLs for which a fetch was attempted),
`app` (URLs appended to the frontier after initialization). -/
structure CrawlTrace where
  pages : List Page
  seenFinal : List String
  deq : List String
  fet : List String
  app : List String
deriving DecidableEq

/-- The crawl loop instrumented with the ghost lists of `CrawlTrace`.
The `seen`/`to_visit`/`pages` components compute exactly as in
`crawlLoop`; `deq`, `fet` and `app` only record events. -/
def crawlLoopT {κ γ : Type} (parse : String → Soup)
    (renderedFetch : String → Option κ → Option γ → Except String String)
    (http : HttpRequest κ → Except String (Nat × String))
    (start_url : String) (max_pages : Nat) (pp : Option String)
    (use_playwright : Bool) (cookies : Option κ) (context : Option γ) :
    List String → List String → List Page →
    List String → List String → List String → CrawlTrace
  | seen, to_visit, pages, deq, fet, app =>
    match to_visit with
    | [] => ⟨pages, seen, deq, fet, app⟩
    | url :: rest =>
      if h : pages.length < max_pages then
        if url ∈ seen then
          crawlLoopT parse renderedFetch http start_url max_pages pp
            use_playwright cookies context seen rest pages (deq ++ [url]) fet app
        else if same_domain start_url url = false then
          crawlLoopT parse renderedFetch http start_url max_pages pp
            use_playwright cookies context seen rest pages (deq ++ [url]) fet app
        else if prefixOk pp url = false then
          crawlLoopT parse renderedFetch http start_url max_pages pp
            use_playwright cookies context seen rest pages (deq ++ [url]) fet app
        else
          match fetch renderedFetch http url use_playwright cookies context with
          | .error _ =>
            crawlLoopT parse renderedFetch http start_url max_pages pp
              use_playwright cookies context (seen.insert url) rest pages
              (deq ++ [url]) (fet ++ [url]) app
          | .ok html =>
            let seen2 := seen.insert url
            let soup := parse html
            let pages2 := pages ++
              [{ url := url, title := pageTitle soup url,
                 html := extract_main_content parse html }]
            let added := newLinks start_url pp seen2 rest (get_links parse html url)
            crawlLoopT parse renderedFetch http start_url max_pages pp
              use_playwright cookies context seen2 (rest ++ added) pages2
              (deq ++ [url]) (fet ++ [url]) (app ++ added)
      else ⟨pages, seen, deq, fet, app⟩
termination_by seen to_visit pages deq fet app =>
  (max_pages - pages.length, to_visit.length)
decreasing_by
  all_goals simp_wf
  · exact Prod.Lex.right _ (by omega)
  · exact Prod.Lex.right _ (by omega)
  · exact Prod.Lex.right _ (by omega)
  · exact Prod.Lex.right _ (by omega)
  · exact Prod.Lex.left _ _ (by omega)

/-- The instrumented crawl from the initial state. -/
def crawlT {κ γ : Type} (parse : String → Soup)
    (renderedFetch : String → Option κ → Option γ → Except String String)
    (http : HttpRequest κ → Except String (Nat × String))
    (start_url : String) (max_pages : Nat) (pp : Option String)
    (use_playwright : Bool) (cookies : Option κ) (context : Option γ) :
    CrawlTrace :=
  crawlLoopT parse renderedFetch http start_url max_pages pp use_playwright
    cookies context [] [start_url] [] [] [] []

/-! ## Spec-side definitions and concrete oracles

`specExtract` renders the spec's wording of the Content Extractor
algorithm, for comparison with `extract_main_content`.  `scopeOk` names
the conjunction of the two scope checks of the crawl engine.  The
remaining definitions are concrete oracle instantiations used to
exercise the theorems on closed inputs. -/

/-- The Content Extractor as worded by the spec: the first selector
match in the fixed order, else the body element, else the full parsed
document. -/
def specExtract (soup : Soup) : String :=
  match (selectorsList.filterMap soup.selectOne).head? with
  | some el => el
  | none => soup.body.getD soup.full

/-- The crawl engine's scope filter for one URL: same domain as the
seed and within the configured path prefix. -/
def scopeOk (start_url : String) (pp : Option String) (u : String) : Bool :=
  same_domain start_url u && prefixOk pp u

/-- A parsed page with four links (one in scope, one out of the path
prefix, one fragment-only, one auth-pattern), a title and no content
containers. -/
def soup1 : Soup :=
  { anchors := ["/docs/b", "/blog/x", "#top", "/docs/login"],
    selectOne := fun _ => none, body := none, full := "FULL",
    titleText := some " My Title " }

/-- A parser oracle returning `soup1` for every document. -/
def parse1 : String → Soup := fun _ => soup1

/-- A parsed page with a single relative link and nothing else. -/
def soupX : Soup :=
  { anchors := ["x"], selectOne := fun _ => none, body := none,
    full := "FULL", titleText := none }

/-- A parser oracle returning `soupX` for every document. -/
def parseX : String → Soup := fun _ => soupX

/-- A rendering oracle that always fails (engine unavailable). -/
def rendered0 : String → Option Unit → Option Unit → Except String String :=
  fun _ _ _ => .error "playwright unavailable"

/-- A static HTTP oracle answering 200 with a fixed document. -/
def http1 : HttpRequest Unit → Except String (Nat × String) :=
  fun _ => .ok (200, "<html/>")

/-- A static HTTP oracle that always fails at the network level. -/
def http0 : HttpRequest Unit → Except String (Nat × String) :=
  fun _ => .error "network down"

/-- Invariant of the crawl loop relating the state `(seen, to_visit)`
to the ghost lists `deq` (dequeued) and `fet` (fetch-attempted):
the frontier is duplicate-free and disjoint from both `seen` and
`deq`; `fet` and `seen` are the same duplicate-free set, of equal
size; `deq` is duplicate-free and every dequeued URL was either
fetch-attempted or out of scope; every fetch-attempted URL was
dequeued and in scope. -/
def CrawlInv (start_url : String) (pp : Option String)
    (seen tv deq fet : List String) : Prop :=
  tv.Nodup ∧
  (∀ u ∈ tv, u ∉ seen) ∧
  (∀ u ∈ tv, u ∉ deq) ∧
  (∀ u, u ∈ fet ↔ u ∈ seen) ∧
  fet.Nodup ∧
  seen.length = fet.length ∧
  deq.Nodup ∧
  (∀ u ∈ deq, u ∈ fet ∨ scopeOk start_url pp u = false) ∧
  (∀ u ∈ fet, u ∈ deq) ∧
  (∀ u ∈ fet, scopeOk start_url pp u = true)

/-- What holds of a finished instrumented crawl: no URL was
fetch-attempted twice, the visited set is exactly the set of
fetch-attempted URLs (and has its size), dequeued URLs are pairwise
distinct, the fetch-attempted URLs are exactly the in-scope dequeued
ones, and every URL ever appended to the frontier is in scope. -/
def CrawlPost (start_url : String) (pp : Option String) (r : CrawlTrace) : Prop :=
  (∀ u, u ∈ r.fet ↔ u ∈ r.seenFinal) ∧
  r.fet.Nodup ∧
  r.seenFinal.length = r.fet.length ∧
  r.deq.Nodup ∧
  (∀ u ∈ r.fet, u ∈ r.deq ∧ scopeOk start_url pp u = true) ∧
  (∀ u ∈ r.deq, u ∈ r.fet ∨ scopeOk start_url pp u = false) ∧
  (∀ u ∈ r.app, scopeOk start_url pp u = true)

/-! ## General lemmas about the embedded helpers -/

/-- `same_domain` is reflexive: a URL is always on its own domain. -/
theorem same_domain_self (a : String) : same_domain a a = true := by
  simp [same_domain]

/-- The empty prefix URL has the empty path, and every path starts
with the empty string, so is_within_prefix of any url and "" is true. -/
theorem is_within_prefix_empty (url : String) : is_within_prefix url "" = true := by
  have h : (pyUrlparse "").path = "" := by decide
  simp [ is_within_prefix, pyStartswith, h, List.isPrefixOf_iff_prefix]

/-- `prefixOk (some p)` implies the source-level prefix predicate. -/
theorem is_within_prefix_of_prefixOk {p url : String}
    (h : prefixOk (some p) url = true) : is_within_prefix url p = true := by
  by_cases hp : p = ""
  · subst hp; exact is_within_prefix_empty url
  · simpa [prefixOk, hp] using h

/-- A character surviving `stripFragment` is not `#`. -/
theorem stripFragment_no_hash (s : String) : '#' ∉ (stripFragment s).data := by
  intro hmem
  have h := List.mem_takeWhile_imp hmem
  simp at h

/-- Provenance of the URLs accumulated by the `get_links` fold: each
one was already in the accumulator or comes from an href of the list
that passed both filters, resolved and fragment-stripped. -/
theorem get_links_foldl_mem (base_url : String) :
    ∀ (l acc : List String), ∀ u ∈ l.foldl
      (fun out href =>
        if pyStartswith href "#" then out
        else if skipPatterns.any (fun p => strContainsSub (pyLower href) p) then out
        else
          let full := stripFragment (pyUrljoin base_url href)
          if full ∈ out then out else out ++ [full]) acc,
      u ∈ acc ∨ ∃ href ∈ l, pyStartswith href "#" = false ∧
        skipPatterns.all (fun p => ! strContainsSub (pyLower href) p) = true ∧
        u = stripFragment (pyUrljoin base_url href) := by
  intro l
  induction l with
  | nil => intro acc u hu; exact .inl hu
  | cons href t ih =>
    intro acc u hu
    rw [List.foldl_cons] at hu
    by_cases h1 : pyStartswith href "#" = true
    · rcases ih _ u (by simpa [h1] using hu) with h | ⟨hr, hmem, hprop⟩
      · exact .inl h
      · exact .inr ⟨hr, List.mem_cons_of_mem _ hmem, hprop⟩
    · by_cases h2 : skipPatterns.any (fun p => strContainsSub (pyLower href) p) = true
      · rcases ih _ u (by simpa [h1, h2] using hu) with h | ⟨hr, hmem, hprop⟩
        · exact .inl h
        · exact .inr ⟨hr, List.mem_cons_of_mem _ hmem, hprop⟩
      · have hu' := ih _ u (by simpa [h1, h2] using hu)
        have hall : skipPatterns.all (fun p => ! strContainsSub (pyLower href) p) = true := by
          rw [List.all_eq_true]
          intro p hp
          rw [List.any_eq_true] at h2
          push_neg at h2
          simp [h2 p hp]
        rcases hu' with h | ⟨hr, hmem, hprop⟩
        · by_cases hin : stripFragment (pyUrljoin base_url href) ∈ acc
          · exact .inl (by simpa [hin] using h)
          · have h' : u ∈ acc ∨ u = stripFragment (pyUrljoin base_url href) := by
              simpa [hin] using h
            rcases h' with h' | h'
            · exact .inl h'
            · exact .inr ⟨href, List.mem_cons_self _ _, by simp [h1], hall, h'⟩
        · exact .inr ⟨hr, List.mem_cons_of_mem _ hmem, hprop⟩

/-- The selector loop returns the head of the matches in list order. -/
theorem firstSelectorMatch_eq (soup : Soup) :
    ∀ l : List String, firstSelectorMatch soup l = (l.filterMap soup.selectOne).head? := by
  intro l
  induction l with
  | nil => rfl
  | cons sel rest ih =>
    rw [firstSelectorMatch, List.filterMap_cons]
    cases h : soup.selectOne sel with
    | some el => simp
    | none => simpa using ih

/-! ## Claims about the Scope Filter (C7, C8) -/

/-- C7: for every pair of URL strings, the result of is_within_prefix
is true iff the path component of `url` starts with the path component
of `prefix` as a literal string prefix; in particular the path
`/docs2` is within the prefix `/docs` (no segment-boundary
awareness). -/
theorem is_within_prefix_literal :
    (∀ url pfx : String, ( is_within_prefix url pfx = true ↔
        (pyUrlparse pfx).path.data <+: (pyUrlparse url).path.data)) ∧
    is_within_prefix "https://ex.com/docs2" "https://ex.com/docs" = true := by
  constructor
  · intro url pfx
    rw [ is_within_prefix, pyStartswith, List.isPrefixOf_iff_prefix]
  · decide

/-- C8 counterexample: the code compares netlocs case-sensitively, so
two URLs whose authorities differ only in host letter case — equal
under standard case-insensitive host comparison — are reported as
different domains. -/
theorem same_domain_case_sensitive_cex :
    same_domain "http://EX.com/" "http://ex.com/" = false ∧
    pyLower (pyUrlparse "http://EX.com/").netloc =
      pyLower (pyUrlparse "http://ex.com/").netloc := by
  constructor
  · decide
  · decide

/-- C8 (amended): `same_domain a b` is true iff the `netloc`
(host+port authority) strings of the two URLs are exactly identical —
the comparison is scheme-insensitive, but host case matters (exact
string comparison, not standard case-insensitive authority
comparison). -/
theorem same_domain_netloc_exact :
    (∀ a b : String, (same_domain a b = true ↔
        (pyUrlparse a).netloc = (pyUrlparse b).netloc)) ∧
    same_domain "http://ex.com/x" "https://ex.com/y" = true := by
  constructor
  · intro a b
    rw [same_domain, beq_iff_eq]
  · decide

/-! ## Claims about the Link Extractor (C6) -/

/-- C6 counterexample: the auth-pattern filter is applied to the raw
`href` attribute, not to the resolved URL, so a harmless relative href
resolved against a base URL that contains `login` yields a returned
URL whose lowercased text contains the skip substring `login`. -/
theorem get_links_base_login_cex :
    get_links parseX "<html/>" "http://ex.com/login/" = ["http://ex.com/login/x"] ∧
    strContainsSub (pyLower "http://ex.com/login/x") "login" = true := by
  constructor
  · decide
  · decide

/-- C6 (amended): every URL returned by `get_links` contains no `#`
character (so no frontier entry is fragment-only), and is the
fragment-stripped resolution of some href attribute that does not
start with `#` and whose lowercased text contains none of the skip
substrings; the skip-substring filter applies to the raw href before
resolution, so the returned absolute URL can still contain a skip
substring inherited from the base URL. -/
theorem get_links_href_filter (parse : String → Soup) (html base_url : String) :
    ∀ u ∈ get_links parse html base_url,
      '#' ∉ u.data ∧
      ∃ href ∈ (parse html).anchors, pyStartswith href "#" = false ∧
        skipPatterns.all (fun p => ! strContainsSub (pyLower href) p) = true ∧
        u = stripFragment (pyUrljoin base_url href) := by
  intro u hu
  rcases get_links_foldl_mem base_url (parse html).anchors [] u hu with h | ⟨hr, hmem, h1, h2, h3⟩
  · simp at h
  · exact ⟨h3 ▸ stripFragment_no_hash _, hr, hmem, h1, h2, h3⟩

/-- Closed witness for `get_links_href_filter` at a concrete page. -/
theorem get_links_href_filter_witness :
    ("http://ex.com/login/x" ∈ get_links parseX "<html/>" "http://ex.com/login/") ∧
    '#' ∉ "http://ex.com/login/x".data := by
  have hmem : "http://ex.com/login/x" ∈ get_links parseX "<html/>" "http://ex.com/login/" := by
    decide
  exact ⟨hmem, (get_links_href_filter parseX "<html/>" "http://ex.com/login/" _ hmem).1⟩

/-! ## Claims about the Content Extractor (C9) -/

/-- C9: the Content Extractor returns the serialization of the first
matching selector in the fixed order `main`, `article`, then the
documentation-container conventions; when no selector matches it
returns the body element, and when no body element exists it returns
the full parsed document. -/
theorem extract_main_content_selector_order :
    (∀ (parse : String → Soup) (html : String),
        extract_main_content parse html = specExtract (parse html)) ∧
    selectorsList = ["main", "article", "div.doc-content", "div.content",
      "div#content", "div.article-body"] ∧
    (∀ (parse : String → Soup) (html : String),
        (∀ sel ∈ selectorsList, (parse html).selectOne sel = none) →
        (parse html).body = none →
        extract_main_content parse html = (parse html).full) := by
  refine ⟨?_, rfl, ?_⟩
  · intro parse html
    rw [extract_main_content, specExtract, firstSelectorMatch_eq]
    cases ((selectorsList.filterMap (parse html).selectOne).head?) with
    | some el => rfl
    | none => cases (parse html).body with
      | some b => rfl
      | none => rfl
  · intro parse html hnone hbody
    rw [extract_main_content, firstSelectorMatch_eq]
    rw [List.filterMap_eq_nil_iff.mpr hnone]
    simp [hbody]

/-- Closed witness for `extract_main_content_selector_order`: a page
with no selector matches and no body yields the full document. -/
theorem extract_main_content_selector_order_witness :
    extract_main_content parseX "<p>x</p>" = (parseX "<p>x</p>").full :=
  extract_main_content_selector_order.2.2 parseX "<p>x</p>"
    (by intro sel _; rfl) rfl

/-! ## Claims about the Fetcher (C3, C10) -/

/-- C3: when the rendered strategy fails (for any reason — the model's
rendering oracle collapses engine start, navigation and timeout
failures into one error result), `fetch` returns exactly the result of
a single `fetch_requests` call on the same URL — the static strategy's
result or its failure, with no further retry. -/
theorem fetch_rendered_fallback_static {κ γ : Type}
    (renderedFetch : String → Option κ → Option γ → Except String String)
    (http : HttpRequest κ → Except String (Nat × String))
    (url : String) (cookies : Option κ) (context : Option γ) (e : String)
    (hfail : renderedFetch url cookies context = .error e) :
    fetch renderedFetch http url true cookies context = fetch_requests http url := by
  simp [fetch, hfail]

/-- Closed witness for `fetch_rendered_fallback_static`: a failing
rendering engine, with both a succeeding and a failing static oracle. -/
theorem fetch_rendered_fallback_static_witness :
    (rendered0 "https://ex.com/a" none none = .error "playwright unavailable") ∧
    fetch rendered0 http1 "https://ex.com/a" true none none =
      fetch_requests http1 "https://ex.com/a" ∧
    fetch rendered0 http0 "https://ex.com/a" true none none =
      fetch_requests http0 "https://ex.com/a" :=
  ⟨rfl,
   fetch_rendered_fallback_static rendered0 http1 "https://ex.com/a" none none _ rfl,
   fetch_rendered_fallback_static rendered0 http0 "https://ex.com/a" none none _ rfl⟩

/-- C10: a fetch with render mode disabled is one `fetch_requests`
call: its result does not depend on the supplied cookie jar or
context, and the HTTP request it issues transmits no cookie material;
the static fallback after a rendered-strategy failure is the same
cookie-free `fetch_requests` call. -/
theorem static_fetch_cookie_independent {κ γ : Type}
    (renderedFetch : String → Option κ → Option γ → Except String String)
    (http : HttpRequest κ → Except String (Nat × String))
    (url : String) (c c' : Option κ) (ctx ctx' : Option γ) :
    fetch renderedFetch http url false c ctx =
      fetch renderedFetch http url false c' ctx' ∧
    fetch renderedFetch http url false c ctx = fetch_requests http url ∧
    (staticRequest κ url).cookiesSent = none ∧
    (∀ e, renderedFetch url c ctx = .error e →
      fetch renderedFetch http url true c ctx = fetch_requests http url) := by
  refine ⟨rfl, rfl, rfl, ?_⟩
  intro e he
  simp [fetch, he]

/-- Closed witness for `static_fetch_cookie_independent` at concrete
oracles, cookie jars and a failing rendering engine. -/
theorem static_fetch_cookie_independent_witness :
    fetch rendered0 http1 "https://ex.com/a" false (some ()) none =
      fetch rendered0 http1 "https://ex.com/a" false none (some ()) ∧
    fetch rendered0 http1 "https://ex.com/a" false (some ()) none =
      fetch_requests http1 "https://ex.com/a" ∧
    (staticRequest Unit "https://ex.com/a").cookiesSent = none ∧
    (rendered0 "https://ex.com/a" (some ()) none = .error "playwright unavailable") ∧
    fetch rendered0 http1 "https://ex.com/a" true (some ()) none =
      fetch_requests http1 "https://ex.com/a" := by
  have h := static_fetch_cookie_independent rendered0 http1 "https://ex.com/a"
    (some ()) none none (some ())
  exact ⟨h.1, h.2.1, h.2.2.1, rfl, h.2.2.2 "playwright unavailable" rfl⟩

/-! ## Step equations for the crawl loop

One rewriting lemma per branch of the loop body, for both the plain
and the instrumented loop. -/

section CrawlEquations

variable {κ γ : Type} (parse : String → Soup)
  (renderedFetch : String → Option κ → Option γ → Except String String)
  (http : HttpRequest κ → Except String (Nat × String))
  (start_url : String) (max_pages : Nat) (pp : Option String)
  (use_playwright : Bool) (cookies : Option κ) (context : Option γ)

theorem crawlLoop_nil (seen : List String) (pages : List Page) :
    crawlLoop parse renderedFetch http start_url max_pages pp use_playwright cookies context seen [] pages = pages := by
  rw [crawlLoop]

theorem crawlLoop_maxed (seen to_visit : List String) (pages : List Page)
    (h : max_pages ≤ pages.length) : crawlLoop parse renderedFetch http start_url max_pages pp use_playwright cookies context seen to_visit pages = pages := by
  cases to_visit with
  | nil => rw [crawlLoop]
  | cons url rest => rw [crawlLoop]; simp [Nat.not_lt.mpr h]

theorem crawlLoop_skip_seen (seen rest : List String) (url : String)
    (pages : List Page) (h : pages.length < max_pages) (hs : url ∈ seen) :
    crawlLoop parse renderedFetch http start_url max_pages pp use_playwright cookies context seen (url :: rest) pages = crawlLoop parse renderedFetch http start_url max_pages pp use_playwright cookies context seen rest pages := by
  rw [crawlLoop]; simp [h, hs]

theorem crawlLoop_skip_domain (seen rest : List String) (url : String)
    (pages : List Page) (h : pages.length < max_pages) (hs : url ∉ seen)
    (hd : same_domain start_url url = false) :
    crawlLoop parse renderedFetch http start_url max_pages pp use_playwright cookies context seen (url :: rest) pages = crawlLoop parse renderedFetch http start_url max_pages pp use_playwright cookies context seen rest pages := by
  rw [crawlLoop]; simp [h, hs, hd]

theorem crawlLoop_skip_pfx (seen rest : List String) (url : String)
    (pages : List Page) (h : pages.length < max_pages) (hs : url ∉ seen)
    (hd : same_domain start_url url = true) (hp : prefixOk pp url = false) :
    crawlLoop parse renderedFetch http start_url max_pages pp use_playwright cookies context seen (url :: rest) pages = crawlLoop parse renderedFetch http start_url max_pages pp use_playwright cookies context seen rest pages := by
  rw [crawlLoop]; simp [h, hs, hd, hp]

theorem crawlLoop_err (seen rest : List String) (url e : String)
    (pages : List Page) (h : pages.length < max_pages) (hs : url ∉ seen)
    (hd : same_domain start_url url = true) (hp : prefixOk pp url = true)
    (hf : fetch renderedFetch http url use_playwright cookies context = .error e) :
    crawlLoop parse renderedFetch http start_url max_pages pp use_playwright cookies context seen (url :: rest) pages = crawlLoop parse renderedFetch http start_url max_pages pp use_playwright cookies context (seen.insert url) rest pages := by
  rw [crawlLoop]; simp [h, hs, hd, hp, hf]

theorem crawlLoop_ok (seen rest : List String) (url html : String)
    (pages : List Page) (h : pages.length < max_pages) (hs : url ∉ seen)
    (hd : same_domain start_url url = true) (hp : prefixOk pp url = true)
    (hf : fetch renderedFetch http url use_playwright cookies context = .ok html) :
    crawlLoop parse renderedFetch http start_url max_pages pp use_playwright cookies context seen (url :: rest) pages =
      crawlLoop parse renderedFetch http start_url max_pages pp use_playwright cookies context (seen.insert url)
        (rest ++ newLinks start_url pp (seen.insert url) rest (get_links parse html url))
        (pages ++ [{ url := url, title := pageTitle (parse html) url,
                     html := extract_main_content parse html }]) := by
  rw [crawlLoop]; simp [h, hs, hd, hp, hf]

theorem crawlLoopT_nil (seen : List String) (pages : List Page)
    (deq fet app : List String) :
    crawlLoopT parse renderedFetch http start_url max_pages pp use_playwright cookies context seen [] pages deq fet app = ⟨pages, seen, deq, fet, app⟩ := by
  rw [crawlLoopT]

theorem crawlLoopT_maxed (seen to_visit : List String) (pages : List Page)
    (deq fet app : List String) (h : max_pages ≤ pages.length) :
    crawlLoopT parse renderedFetch http start_url max_pages pp use_playwright cookies context seen to_visit pages deq fet app = ⟨pages, seen, deq, fet, app⟩ := by
  cases to_visit with
  | nil => rw [crawlLoopT]
  | cons url rest => rw [crawlLoopT]; simp [Nat.not_lt.mpr h]

theorem crawlLoopT_skip_seen (seen rest : List String) (url : String)
    (pages : List Page) (deq fet app : List String)
    (h : pages.length < max_pages) (hs : url ∈ seen) :
    crawlLoopT parse renderedFetch http start_url max_pages pp use_playwright cookies context seen (url :: rest) pages deq fet app =
      crawlLoopT parse renderedFetch http start_url max_pages pp use_playwright cookies context seen rest pages (deq ++ [url]) fet app := by
  rw [crawlLoopT]; simp [h, hs]

theorem crawlLoopT_skip_domain (seen rest : List String) (url : String)
    (pages : List Page) (deq fet app : List String)
    (h : pages.length < max_pages) (hs : url ∉ seen)
    (hd : same_domain start_url url = false) :
    crawlLoopT parse renderedFetch http start_url max_pages pp use_playwright cookies context seen (url :: rest) pages deq fet app =
      crawlLoopT parse renderedFetch http start_url max_pages pp use_playwright cookies context seen rest pages (deq ++ [url]) fet app := by
  rw [crawlLoopT]; simp [h, hs, hd]

theorem crawlLoopT_skip_pfx (seen rest : List String) (url : String)
    (pages : List Page) (deq fet app : List String)
    (h : pages.length < max_pages) (hs : url ∉ seen)
    (hd : same_domain start_url url = true) (hp : prefixOk pp url = false) :
    crawlLoopT parse renderedFetch http start_url max_pages pp use_playwright cookies context seen (url :: rest) pages deq fet app =
      crawlLoopT parse renderedFetch http start_url max_pages pp use_playwright cookies context seen rest pages (deq ++ [url]) fet app := by
  rw [crawlLoopT]; simp [h, hs, hd, hp]

theorem crawlLoopT_err (seen rest : List String) (url e : String)
    (pages : List Page) (deq fet app : List String)
    (h : pages.length < max_pages) (hs : url ∉ seen)
    (hd : same_domain start_url url = true) (hp : prefixOk pp url = true)
    (hf : fetch renderedFetch http url use_playwright cookies context = .error e) :
    crawlLoopT parse renderedFetch http start_url max_pages pp use_playwright cookies context seen (url :: rest) pages deq fet app =
      crawlLoopT parse renderedFetch http start_url max_pages pp use_playwright cookies context (seen.insert url) rest pages (deq ++ [url]) (fet ++ [url]) app := by
  rw [crawlLoopT]; simp [h, hs, hd, hp, hf]

theorem crawlLoopT_ok (seen rest : List String) (url html : String)
    (pages : List Page) (deq fet app : List String)
    (h : pages.length < max_pages) (hs : url ∉ seen)
    (hd : same_domain start_url url = true) (hp : prefixOk pp url = true)
    (hf : fetch renderedFetch http url use_playwright cookies context = .ok html) :
    crawlLoopT parse renderedFetch http start_url max_pages pp use_playwright cookies context seen (url :: rest) pages deq fet app =
      crawlLoopT parse renderedFetch http start_url max_pages pp use_playwright cookies context (seen.insert url)
        (rest ++ newLinks start_url pp (seen.insert url) rest (get_links parse html url))
        (pages ++ [{ url := url, title := pageTitle (parse html) url,
                     html := extract_main_content parse html }])
        (deq ++ [url]) (fet ++ [url])
        (app ++ newLinks start_url pp (seen.insert url) rest (get_links parse html url)) := by
  rw [crawlLoopT]; simp [h, hs, hd, hp, hf]

end CrawlEquations

/-! ## Properties of the link-appending fold -/

/-- Generalized accumulator lemma for the `newLinks` fold: the result
stays duplicate-free and every element passed all four checks. -/
theorem newLinks_foldl (start_url : String) (pp : Option String) (seen tv : List String) :
    ∀ (links acc : List String), acc.Nodup →
      (∀ l ∈ acc, l ∉ seen ∧ l ∉ tv ∧ same_domain start_url l = true ∧
        prefixOk pp l = true) →
      ((links.foldl
          (fun acc2 l =>
            if l ∉ seen ∧ l ∉ tv ∧ l ∉ acc2 ∧ same_domain start_url l = true ∧
                prefixOk pp l = true
            then acc2 ++ [l] else acc2) acc).Nodup ∧
        ∀ l ∈ links.foldl
          (fun acc2 l =>
            if l ∉ seen ∧ l ∉ tv ∧ l ∉ acc2 ∧ same_domain start_url l = true ∧
                prefixOk pp l = true
            then acc2 ++ [l] else acc2) acc,
          l ∉ seen ∧ l ∉ tv ∧ same_domain start_url l = true ∧
            prefixOk pp l = true) := by
  intro links
  induction links with
  | nil => intro acc h1 h2; exact ⟨h1, h2⟩
  | cons x xs ih =>
    intro acc h1 h2
    rw [List.foldl_cons]
    by_cases hc : x ∉ seen ∧ x ∉ tv ∧ x ∉ acc ∧ same_domain start_url x = true ∧
        prefixOk pp x = true
    · rw [if_pos hc]
      refine ih (acc ++ [x]) ?_ ?_
      · simp [List.nodup_append, h1, hc.2.2.1]
      · intro l hl
        rcases List.mem_append.mp hl with hl | hl
        · exact h2 l hl
        · have hx : l = x := by simpa using hl
          subst hx
          exact ⟨hc.1, hc.2.1, hc.2.2.2.1, hc.2.2.2.2⟩
    · rw [if_neg hc]
      exact ih acc h1 h2

/-- The links actually appended by one crawl step are duplicate-free,
fresh with respect to `seen` and the current frontier, and in scope. -/
theorem newLinks_spec (start_url : String) (pp : Option String)
    (seen tv links : List String) :
    (newLinks start_url pp seen tv links).Nodup ∧
    ∀ l ∈ newLinks start_url pp seen tv links,
      l ∉ seen ∧ l ∉ tv ∧ same_domain start_url l = true ∧ prefixOk pp l = true :=
  newLinks_foldl start_url pp seen tv links [] (by simp) (by simp)

/-! ## Preservation of the crawl-loop invariant -/

/-- `CrawlInv` is preserved by any skip branch: the popped URL was
previously fetch-attempted (seen) or is out of scope. -/
theorem crawlInv_skip {start_url : String} {pp : Option String}
    {seen : List String} {url : String} {rest deq fet : List String}
    (h : CrawlInv start_url pp seen (url :: rest) deq fet)
    (hcase : url ∈ fet ∨ scopeOk start_url pp url = false) :
    CrawlInv start_url pp seen rest (deq ++ [url]) fet := by
  obtain ⟨htvN, htvS, htvD, hfs, hfN, hlen, hdN, hdC, hfd, hfsc⟩ := h
  have hur : url ∉ rest := (List.nodup_cons.mp htvN).1
  have hud : url ∉ deq := htvD url (List.mem_cons_self _ _)
  refine ⟨(List.nodup_cons.mp htvN).2,
    fun u hu => htvS u (List.mem_cons_of_mem _ hu), ?_, hfs, hfN, hlen, ?_, ?_,
    fun u hu => List.mem_append_left _ (hfd u hu), hfsc⟩
  · intro u hu hm
    rcases List.mem_append.mp hm with hm | hm
    · exact htvD u (List.mem_cons_of_mem _ hu) hm
    · exact hur ((by simpa using hm : u = url) ▸ hu)
  · simp [List.nodup_append, hdN, hud]
  · intro u hu
    rcases List.mem_append.mp hu with hm | hm
    · exact hdC u hm
    · exact (by simpa using hm : u = url) ▸ hcase

/-- `CrawlInv` is preserved by a fetch attempt (failing or not): the
fresh in-scope URL moves into `seen` and both ghost lists. -/
theorem crawlInv_fetch {start_url : String} {pp : Option String}
    {seen : List String} {url : String} {rest deq fet : List String}
    (h : CrawlInv start_url pp seen (url :: rest) deq fet)
    (hs : url ∉ seen) (hscope : scopeOk start_url pp url = true) :
    CrawlInv start_url pp (List.insert url seen) rest (deq ++ [url]) (fet ++ [url]) := by
  obtain ⟨htvN, htvS, htvD, hfs, hfN, hlen, hdN, hdC, hfd, hfsc⟩ := h
  have hur : url ∉ rest := (List.nodup_cons.mp htvN).1
  have hud : url ∉ deq := htvD url (List.mem_cons_self _ _)
  have huf : url ∉ fet := fun hm => hs ((hfs url).mp hm)
  have hins : List.insert url seen = url :: seen := List.insert_of_not_mem hs
  refine ⟨(List.nodup_cons.mp htvN).2, ?_, ?_, ?_, ?_, ?_, ?_, ?_, ?_, ?_⟩
  · intro u hu
    rw [hins]
    intro hm
    rcases List.mem_cons.mp hm with hm | hm
    · exact hur (hm ▸ hu)
    · exact htvS u (List.mem_cons_of_mem _ hu) hm
  · intro u hu hm
    rcases List.mem_append.mp hm with hm | hm
    · exact htvD u (List.mem_cons_of_mem _ hu) hm
    · exact hur ((by simpa using hm : u = url) ▸ hu)
  · intro u
    rw [hins]
    simp only [List.mem_append, List.mem_cons, List.not_mem_nil, or_false, hfs u]
    exact or_comm
  · simp [List.nodup_append, hfN, huf]
  · rw [hins]
    simp [hlen]
  · simp [List.nodup_append, hdN, hud]
  · intro u hu
    rcases List.mem_append.mp hu with hm | hm
    · rcases hdC u hm with hc | hc
      · exact .inl (List.mem_append_left _ hc)
      · exact .inr hc
    · exact .inl (List.mem_append_right _ hm)
  · intro u hu
    rcases List.mem_append.mp hu with hm | hm
    · exact List.mem_append_left _ (hfd u hm)
    · exact List.mem_append_right _ hm
  · intro u hu
    rcases List.mem_append.mp hu with hm | hm
    · exact hfsc u hm
    · exact (by simpa using hm : u = url) ▸ hscope

/-- `CrawlInv` is preserved when fresh, frontier-fresh, in-scope links
are appended to the frontier. -/
theorem crawlInv_extend {start_url : String} {pp : Option String}
    {seen tv deq fet : List String}
    (h : CrawlInv start_url pp seen tv deq fet) (added : List String)
    (haN : added.Nodup)
    (hprops : ∀ l ∈ added, l ∉ seen ∧ l ∉ tv ∧ scopeOk start_url pp l = true) :
    CrawlInv start_url pp seen (tv ++ added) deq fet := by
  obtain ⟨htvN, htvS, htvD, hfs, hfN, hlen, hdN, hdC, hfd, hfsc⟩ := h
  refine ⟨?_, ?_, ?_, hfs, hfN, hlen, hdN, hdC, hfd, hfsc⟩
  · rw [List.nodup_append]
    exact ⟨htvN, haN, fun a ha ha' => (hprops a ha').2.1 ha⟩
  · intro u hu
    rcases List.mem_append.mp hu with hm | hm
    · exact htvS u hm
    · exact (hprops u hm).1
  · intro u hu
    rcases List.mem_append.mp hu with hm | hm
    · exact htvD u hm
    · intro hd
      rcases hdC u hd with hc | hc
      · exact (hprops u hm).1 ((hfs u).mp hc)
      · rw [(hprops u hm).2.2] at hc
        cases hc

/-- A terminal crawl state satisfying the invariant (with any leftover
frontier) satisfies the postcondition. -/
theorem crawlInv_post {start_url : String} {pp : Option String}
    {seen tv deq fet : List String} (pages : List Page) (app : List String)
    (h : CrawlInv start_url pp seen tv deq fet)
    (happ : ∀ u ∈ app, scopeOk start_url pp u = true) :
    CrawlPost start_url pp ⟨pages, seen, deq, fet, app⟩ := by
  obtain ⟨_, _, _, hfs, hfN, hlen, hdN, hdC, hfd, hfsc⟩ := h
  exact ⟨hfs, hfN, hlen, hdN, fun u hu => ⟨hfd u hu, hfsc u hu⟩, hdC, happ⟩

/-! ## The crawl-loop postcondition, page bound, and projection -/

section CrawlInduction

variable {κ γ : Type} (parse : String → Soup)
  (renderedFetch : String → Option κ → Option γ → Except String String)
  (http : HttpRequest κ → Except String (Nat × String))
  (start_url : String) (max_pages : Nat) (pp : Option String)
  (use_playwright : Bool) (cookies : Option κ) (context : Option γ)

/-- Main induction: running the instrumented loop from a state
satisfying `CrawlInv` (with all appended-so-far URLs in scope)
produces a trace satisfying `CrawlPost`. -/
theorem crawlLoopT_post :
    ∀ (seen tv : List String) (pages : List Page) (deq fet app : List String),
      CrawlInv start_url pp seen tv deq fet →
      (∀ u ∈ app, scopeOk start_url pp u = true) →
      CrawlPost start_url pp
        (crawlLoopT parse renderedFetch http start_url max_pages pp
          use_playwright cookies context seen tv pages deq fet app) := by
  intro seen tv pages deq fet app
  induction seen, tv, pages, deq, fet, app using crawlLoopT.induct parse
    renderedFetch http start_url max_pages pp use_playwright cookies context with
  | case1 seen pages deq fet app =>
    intro hinv happ
    rw [crawlLoopT_nil]
    exact crawlInv_post pages app hinv happ
  | case2 seen pages deq fet app url rest h hs ih =>
    intro hinv happ
    rw [crawlLoopT_skip_seen _ _ _ _ _ _ _ _ _ _ _ _ _ _ _ _ h hs]
    exact ih (crawlInv_skip hinv (.inl ((hinv.2.2.2.1 url).mpr hs))) happ
  | case3 seen pages deq fet app url rest h hs hd ih =>
    intro hinv happ
    rw [crawlLoopT_skip_domain _ _ _ _ _ _ _ _ _ _ _ _ _ _ _ _ h hs hd]
    exact ih (crawlInv_skip hinv (.inr (by simp [scopeOk, hd]))) happ
  | case4 seen pages deq fet app url rest h hs hd hp ih =>
    intro hinv happ
    have hd' : same_domain start_url url = true := by simpa using hd
    rw [crawlLoopT_skip_pfx _ _ _ _ _ _ _ _ _ _ _ _ _ _ _ _ h hs hd' hp]
    exact ih (crawlInv_skip hinv (.inr (by simp [scopeOk, hp]))) happ
  | case5 seen pages deq fet app url rest h hs hd hp e herr ih =>
    intro hinv happ
    have hd' : same_domain start_url url = true := by simpa using hd
    have hp' : prefixOk pp url = true := by simpa using hp
    rw [crawlLoopT_err _ _ _ _ _ _ _ _ _ _ _ _ _ _ _ _ _ h hs hd' hp' herr]
    exact ih (crawlInv_fetch hinv hs (by simp [scopeOk, hd', hp'])) happ
  | case6 seen pages deq fet app url rest h hs hd hp html hok seen2 soup pages2 added ih =>
    intro hinv happ
    have hd' : same_domain start_url url = true := by simpa using hd
    have hp' : prefixOk pp url = true := by simpa using hp
    rw [crawlLoopT_ok _ _ _ _ _ _ _ _ _ _ _ _ _ _ _ _ _ h hs hd' hp' hok]
    have base := crawlInv_fetch hinv hs (by simp [scopeOk, hd', hp'])
    have hnl := newLinks_spec start_url pp (List.insert url seen) rest
      (get_links parse html url)
    refine ih ?_ ?_
    · exact crawlInv_extend base _ hnl.1
        (fun l hl => ⟨(hnl.2 l hl).1, (hnl.2 l hl).2.1,
          by simp [scopeOk, (hnl.2 l hl).2.2.1, (hnl.2 l hl).2.2.2]⟩)
    · intro u hu
      rcases List.mem_append.mp hu with hm | hm
      · exact happ u hm
      · simp [scopeOk, (hnl.2 u hm).2.2.1, (hnl.2 u hm).2.2.2]
  | case7 seen pages deq fet app url rest h =>
    intro hinv happ
    rw [crawlLoopT_maxed _ _ _ _ _ _ _ _ _ _ _ _ _ _ _ (Nat.le_of_not_lt h)]
    exact crawlInv_post pages app hinv happ

/-- The initial crawl state satisfies the invariant. -/
theorem crawlInv_init :
    CrawlInv start_url pp [] [start_url] [] [] := by
  refine ⟨?_, ?_, ?_, ?_, ?_, ?_, ?_, ?_, ?_, ?_⟩ <;> simp

/-- The postcondition of a full instrumented crawl. -/
theorem crawlT_post :
    CrawlPost start_url pp
      (crawlT parse renderedFetch http start_url max_pages pp use_playwright
        cookies context) :=
  crawlLoopT_post parse renderedFetch http start_url max_pages pp
    use_playwright cookies context [] [start_url] [] [] [] []
    (crawlInv_init start_url pp) (by simp)

/-- The loop never grows `pages` beyond `max_pages` (given that it
starts within the bound). -/
theorem crawlLoop_length_le :
    ∀ (seen tv : List String) (pages : List Page), pages.length ≤ max_pages →
      (crawlLoop parse renderedFetch http start_url max_pages pp use_playwright
        cookies context seen tv pages).length ≤ max_pages := by
  intro seen tv pages
  induction seen, tv, pages using crawlLoop.induct parse renderedFetch http
    start_url max_pages pp use_playwright cookies context with
  | case1 seen pages =>
    intro hlen
    rw [crawlLoop_nil]
    exact hlen
  | case2 seen pages url rest h hs ih =>
    intro hlen
    rw [crawlLoop_skip_seen _ _ _ _ _ _ _ _ _ _ _ _ _ h hs]
    exact ih hlen
  | case3 seen pages url rest h hs hd ih =>
    intro hlen
    rw [crawlLoop_skip_domain _ _ _ _ _ _ _ _ _ _ _ _ _ h hs hd]
    exact ih hlen
  | case4 seen pages url rest h hs hd hp ih =>
    intro hlen
    have hd' : same_domain start_url url = true := by simpa using hd
    rw [crawlLoop_skip_pfx _ _ _ _ _ _ _ _ _ _ _ _ _ h hs hd' hp]
    exact ih hlen
  | case5 seen pages url rest h hs hd hp e herr ih =>
    intro hlen
    have hd' : same_domain start_url url = true := by simpa using hd
    have hp' : prefixOk pp url = true := by simpa using hp
    rw [crawlLoop_err _ _ _ _ _ _ _ _ _ _ _ _ _ _ h hs hd' hp' herr]
    exact ih hlen
  | case6 seen pages url rest h hs hd hp html hok seen2 soup pages2 added ih =>
    intro _
    have hd' : same_domain start_url url = true := by simpa using hd
    have hp' : prefixOk pp url = true := by simpa using hp
    rw [crawlLoop_ok _ _ _ _ _ _ _ _ _ _ _ _ _ _ h hs hd' hp' hok]
    refine ih ?_
    have hl : pages2.length = pages.length + 1 := by
      simp [pages2]
    omega
  | case7 seen pages url rest h =>
    intro hlen
    rw [crawlLoop_maxed _ _ _ _ _ _ _ _ _ _ _ _ (Nat.le_of_not_lt h)]
    exact hlen

/-- The instrumented loop computes the same `pages` as the plain loop:
the ghost lists are pure observation. -/
theorem crawlLoopT_pages :
    ∀ (seen tv : List String) (pages : List Page) (deq fet app : List String),
      (crawlLoopT parse renderedFetch http start_url max_pages pp use_playwright
        cookies context seen tv pages deq fet app).pages =
      crawlLoop parse renderedFetch http start_url max_pages pp use_playwright
        cookies context seen tv pages := by
  intro seen tv pages deq fet app
  induction seen, tv, pages, deq, fet, app using crawlLoopT.induct parse
    renderedFetch http start_url max_pages pp use_playwright cookies context with
  | case1 seen pages deq fet app =>
    rw [crawlLoopT_nil, crawlLoop_nil]
  | case2 seen pages deq fet app url rest h hs ih =>
    rw [crawlLoopT_skip_seen _ _ _ _ _ _ _ _ _ _ _ _ _ _ _ _ h hs,
      crawlLoop_skip_seen _ _ _ _ _ _ _ _ _ _ _ _ _ h hs]
    exact ih
  | case3 seen pages deq fet app url rest h hs hd ih =>
    rw [crawlLoopT_skip_domain _ _ _ _ _ _ _ _ _ _ _ _ _ _ _ _ h hs hd,
      crawlLoop_skip_domain _ _ _ _ _ _ _ _ _ _ _ _ _ h hs hd]
    exact ih
  | case4 seen pages deq fet app url rest h hs hd hp ih =>
    have hd' : same_domain start_url url = true := by simpa using hd
    rw [crawlLoopT_skip_pfx _ _ _ _ _ _ _ _ _ _ _ _ _ _ _ _ h hs hd' hp,
      crawlLoop_skip_pfx _ _ _ _ _ _ _ _ _ _ _ _ _ h hs hd' hp]
    exact ih
  | case5 seen pages deq fet app url rest h hs hd hp e herr ih =>
    have hd' : same_domain start_url url = true := by simpa using hd
    have hp' : prefixOk pp url = true := by simpa using hp
    rw [crawlLoopT_err _ _ _ _ _ _ _ _ _ _ _ _ _ _ _ _ _ h hs hd' hp' herr,
      crawlLoop_err _ _ _ _ _ _ _ _ _ _ _ _ _ _ h hs hd' hp' herr]
    exact ih
  | case6 seen pages deq fet app url rest h hs hd hp html hok seen2 soup pages2 added ih =>
    have hd' : same_domain start_url url = true := by simpa using hd
    have hp' : prefixOk pp url = true := by simpa using hp
    rw [crawlLoopT_ok _ _ _ _ _ _ _ _ _ _ _ _ _ _ _ _ _ h hs hd' hp' hok,
      crawlLoop_ok _ _ _ _ _ _ _ _ _ _ _ _ _ _ h hs hd' hp' hok]
    exact ih
  | case7 seen pages deq fet app url rest h =>
    rw [crawlLoopT_maxed _ _ _ _ _ _ _ _ _ _ _ _ _ _ _ (Nat.le_of_not_lt h),
      crawlLoop_maxed _ _ _ _ _ _ _ _ _ _ _ _ (Nat.le_of_not_lt h)]

/-- The pages of the instrumented crawl are the pages of `crawl`. -/
theorem crawlT_pages :
    (crawlT parse renderedFetch http start_url max_pages pp use_playwright
      cookies context).pages =
    crawl parse renderedFetch http start_url max_pages pp use_playwright
      cookies context :=
  crawlLoopT_pages parse renderedFetch http start_url max_pages pp
    use_playwright cookies context [] [start_url] [] [] [] []

end CrawlInduction

/-! ## Concrete crawl evaluations -/

/-- One-page crawl of the `soup1` site: the seed is fetched, its
in-scope link is appended to the frontier, and the page cap stops the
loop. -/
theorem crawlT_eval1 :
    crawlT parse1 rendered0 http1 "https://ex.com/docs/a" 1
      (some "https://ex.com/docs") false none none =
    ⟨[{ url := "https://ex.com/docs/a", title := "My Title", html := "FULL" }],
     ["https://ex.com/docs/a"], ["https://ex.com/docs/a"],
     ["https://ex.com/docs/a"], ["https://ex.com/docs/b"]⟩ := by
  refine Eq.trans (crawlLoopT_ok parse1 rendered0 http1 "https://ex.com/docs/a" 1
    (some "https://ex.com/docs") false none none [] [] "https://ex.com/docs/a"
    "<html/>" [] [] [] [] (by decide) (by decide) (by decide) (by decide) rfl) ?_
  refine Eq.trans (crawlLoopT_maxed _ _ _ _ _ _ _ _ _ _ _ _ _ _ _ (by decide)) ?_
  decide

/-- Crawl whose seed is outside the configured path prefix: the seed
is dequeued and discarded without being fetched or visited. -/
theorem crawlT_eval2 :
    crawlT parse1 rendered0 http1 "http://ex.com/a" 5
      (some "http://ex.com/docs") false none none =
    ⟨[], [], ["http://ex.com/a"], [], []⟩ := by
  refine Eq.trans (crawlLoopT_skip_pfx parse1 rendered0 http1 "http://ex.com/a" 5
    (some "http://ex.com/docs") false none none [] [] "http://ex.com/a" [] [] [] []
    (by decide) (by decide) (by decide) (by decide)) ?_
  refine Eq.trans (crawlLoopT_nil _ _ _ _ _ _ _ _ _ _ _ _ _ _) ?_
  decide

/-! ## Claims about the Crawl Engine (C1, C2, C4, C5) -/

/-- C1: every URL the crawl engine ever appends to the frontier after
initialization is same-domain with the seed, and, when a path prefix
is configured, within that prefix. -/
theorem crawl_frontier_in_scope {κ γ : Type} (parse : String → Soup)
    (renderedFetch : String → Option κ → Option γ → Except String String)
    (http : HttpRequest κ → Except String (Nat × String))
    (start_url : String) (max_pages : Nat) (pp : Option String)
    (use_playwright : Bool) (cookies : Option κ) (context : Option γ) :
    ∀ u ∈ (crawlT parse renderedFetch http start_url max_pages pp use_playwright
        cookies context).app,
      same_domain start_url u = true ∧
      ∀ p, pp = some p → is_within_prefix u p = true := by
  intro u hu
  have hpost := crawlT_post parse renderedFetch http start_url max_pages pp
    use_playwright cookies context
  have hsc := hpost.2.2.2.2.2.2 u hu
  rw [scopeOk, Bool.and_eq_true] at hsc
  refine ⟨hsc.1, ?_⟩
  intro p hp
  subst hp
  exact is_within_prefix_of_prefixOk hsc.2

/-- Closed witness for `crawl_frontier_in_scope`: the in-scope link of
the seed page is appended, and it satisfies both scope predicates. -/
theorem crawl_frontier_in_scope_witness :
    ("https://ex.com/docs/b" ∈ (crawlT parse1 rendered0 http1 "https://ex.com/docs/a" 1
        (some "https://ex.com/docs") false none none).app) ∧
    same_domain "https://ex.com/docs/a" "https://ex.com/docs/b" = true ∧
    is_within_prefix "https://ex.com/docs/b" "https://ex.com/docs" = true := by
  have hmem : "https://ex.com/docs/b" ∈ (crawlT parse1 rendered0 http1
      "https://ex.com/docs/a" 1 (some "https://ex.com/docs") false none none).app := by
    rw [crawlT_eval1]
    decide
  have h := crawl_frontier_in_scope parse1 rendered0 http1 "https://ex.com/docs/a" 1
    (some "https://ex.com/docs") false none none _ hmem
  exact ⟨hmem, h.1, h.2 _ rfl⟩

/-- C2 counterexample: with seed `http://ex.com/a` and path prefix
`http://ex.com/docs`, the seed is dequeued but discarded by the scope
filter, so one distinct URL is dequeued while the visited set stays
empty — the claimed equality of the two counts fails. -/
theorem crawl_visited_count_cex :
    (crawlT parse1 rendered0 http1 "http://ex.com/a" 5 (some "http://ex.com/docs")
        false none none).seenFinal.length = 0 ∧
    (crawlT parse1 rendered0 http1 "http://ex.com/a" 5 (some "http://ex.com/docs")
        false none none).deq.dedup.length = 1 ∧
    (crawlT parse1 rendered0 http1 "http://ex.com/a" 5 (some "http://ex.com/docs")
        false none none).seenFinal.length ≠
      (crawlT parse1 rendered0 http1 "http://ex.com/a" 5 (some "http://ex.com/docs")
        false none none).deq.dedup.length := by
  rw [crawlT_eval2]
  decide

/-- C2 (amended): no URL is ever passed to the fetcher twice — the
fetch-attempt list is duplicate-free, every fetch-attempted URL is in
the final visited set, and the visited set's final size equals the
number of distinct dequeued URLs that pass the scope filter (the seed,
when out of scope, is dequeued without ever being visited). -/
theorem crawl_no_url_refetched {κ γ : Type} (parse : String → Soup)
    (renderedFetch : String → Option κ → Option γ → Except String String)
    (http : HttpRequest κ → Except String (Nat × String))
    (start_url : String) (max_pages : Nat) (pp : Option String)
    (use_playwright : Bool) (cookies : Option κ) (context : Option γ) :
    (crawlT parse renderedFetch http start_url max_pages pp use_playwright
        cookies context).fet.Nodup ∧
    (∀ u ∈ (crawlT parse renderedFetch http start_url max_pages pp use_playwright
        cookies context).fet,
      u ∈ (crawlT parse renderedFetch http start_url max_pages pp use_playwright
        cookies context).seenFinal) ∧
    (crawlT parse renderedFetch http start_url max_pages pp use_playwright
        cookies context).seenFinal.length =
      ((crawlT parse renderedFetch http start_url max_pages pp use_playwright
        cookies context).deq.filter (fun u => scopeOk start_url pp u)).length ∧
    (crawlT parse renderedFetch http start_url max_pages pp use_playwright
        cookies context).deq.Nodup := by
  obtain ⟨hfs, hfN, hlen, hdN, hfet, hdeq, _⟩ := crawlT_post parse renderedFetch
    http start_url max_pages pp use_playwright cookies context
  refine ⟨hfN, fun u hu => (hfs u).mp hu, ?_, hdN⟩
  have hperm : (crawlT parse renderedFetch http start_url max_pages pp
      use_playwright cookies context).fet.Perm
      ((crawlT parse renderedFetch http start_url max_pages pp use_playwright
        cookies context).deq.filter (fun u => scopeOk start_url pp u)) := by
    rw [List.perm_ext_iff_of_nodup hfN (hdN.filter _)]
    intro a
    rw [List.mem_filter]
    constructor
    · intro ha
      exact ⟨(hfet a ha).1, (hfet a ha).2⟩
    · rintro ⟨hd, hsc⟩
      rcases hdeq a hd with h | h
      · exact h
      · simp [h] at hsc
  rw [hlen, hperm.length_eq]

/-- Closed witness for `crawl_no_url_refetched`: the fetched seed is
in the final visited set and the fetch list is duplicate-free. -/
theorem crawl_no_url_refetched_witness :
    ("https://ex.com/docs/a" ∈ (crawlT parse1 rendered0 http1 "https://ex.com/docs/a" 1
        (some "https://ex.com/docs") false none none).fet) ∧
    "https://ex.com/docs/a" ∈ (crawlT parse1 rendered0 http1 "https://ex.com/docs/a" 1
        (some "https://ex.com/docs") false none none).seenFinal ∧
    (crawlT parse1 rendered0 http1 "https://ex.com/docs/a" 1
        (some "https://ex.com/docs") false none none).fet.Nodup := by
  have h := crawl_no_url_refetched parse1 rendered0 http1 "https://ex.com/docs/a" 1
    (some "https://ex.com/docs") false none none
  have hmem : "https://ex.com/docs/a" ∈ (crawlT parse1 rendered0 http1
      "https://ex.com/docs/a" 1 (some "https://ex.com/docs") false none none).fet := by
    rw [crawlT_eval1]
    decide
  exact ⟨hmem, h.2.1 _ hmem, h.1⟩

/-- C4: the returned page collection never exceeds `max_pages`; and
with `max_pages = 1`, an in-scope seed whose fetch succeeds yields
exactly one page record, for the seed URL, regardless of how many
in-scope links the seed page contains. -/
theorem crawl_respects_max_pages {κ γ : Type} (parse : String → Soup)
    (renderedFetch : String → Option κ → Option γ → Except String String)
    (http : HttpRequest κ → Except String (Nat × String))
    (start_url : String) (max_pages : Nat) (pp : Option String)
    (use_playwright : Bool) (cookies : Option κ) (context : Option γ) :
    (crawl parse renderedFetch http start_url max_pages pp use_playwright
      cookies context).length ≤ max_pages ∧
    (∀ html, fetch renderedFetch http start_url use_playwright cookies context = .ok html →
      prefixOk pp start_url = true →
      crawl parse renderedFetch http start_url 1 pp use_playwright cookies context =
        [{ url := start_url, title := pageTitle (parse html) start_url,
           html := extract_main_content parse html }]) := by
  constructor
  · exact crawlLoop_length_le parse renderedFetch http start_url max_pages pp
      use_playwright cookies context [] [start_url] [] (by simp)
  · intro html hf hp
    have h1 := crawlLoop_ok parse renderedFetch http start_url 1 pp use_playwright
      cookies context [] [] start_url html [] (by simp) (by simp)
      (same_domain_self start_url) hp hf
    have h2 := crawlLoop_maxed parse renderedFetch http start_url 1 pp use_playwright
      cookies context (List.insert start_url [])
      ([] ++ newLinks start_url pp (List.insert start_url []) []
        (get_links parse html start_url))
      ([] ++ [{ url := start_url, title := pageTitle (parse html) start_url,
                html := extract_main_content parse html }]) (by simp)
    exact Eq.trans h1 (Eq.trans h2 (by simp))

/-- Closed witness for `crawl_respects_max_pages`: a one-page crawl of
the `soup1` site, whose seed page carries in-scope links. -/
theorem crawl_respects_max_pages_witness :
    (fetch rendered0 http1 "https://ex.com/docs/a" false none none = .ok "<html/>") ∧
    prefixOk (some "https://ex.com/docs") "https://ex.com/docs/a" = true ∧
    crawl parse1 rendered0 http1 "https://ex.com/docs/a" 1 (some "https://ex.com/docs")
        false none none =
      [{ url := "https://ex.com/docs/a",
         title := pageTitle (parse1 "<html/>") "https://ex.com/docs/a",
         html := extract_main_content parse1 "<html/>" }] := by
  refine ⟨rfl, by decide, ?_⟩
  exact (crawl_respects_max_pages parse1 rendered0 http1 "https://ex.com/docs/a" 1
    (some "https://ex.com/docs") false none none).2 "<html/>" rfl (by decide)

/-- C5: a failed fetch never aborts the crawl — the step on a fresh,
in-scope URL whose fetch errors continues with the URL marked visited
and the page collection unchanged; and a seed whose fetch fails yields
the empty page collection. -/
theorem crawl_fetch_failure_nonfatal {κ γ : Type} (parse : String → Soup)
    (renderedFetch : String → Option κ → Option γ → Except String String)
    (http : HttpRequest κ → Except String (Nat × String))
    (start_url : String) (max_pages : Nat) (pp : Option String)
    (use_playwright : Bool) (cookies : Option κ) (context : Option γ) :
    (∀ (seen rest : List String) (url e : String) (pages : List Page),
      pages.length < max_pages → url ∉ seen →
      same_domain start_url url = true → prefixOk pp url = true →
      fetch renderedFetch http url use_playwright cookies context = .error e →
      crawlLoop parse renderedFetch http start_url max_pages pp use_playwright
        cookies context seen (url :: rest) pages =
      crawlLoop parse renderedFetch http start_url max_pages pp use_playwright
        cookies context (List.insert url seen) rest pages) ∧
    (∀ e, fetch renderedFetch http start_url use_playwright cookies context = .error e →
      crawl parse renderedFetch http start_url max_pages pp use_playwright
        cookies context = []) := by
  constructor
  · intro seen rest url e pages h hs hd hp hf
    exact crawlLoop_err parse renderedFetch http start_url max_pages pp
      use_playwright cookies context seen rest url e pages h hs hd hp hf
  · intro e he
    cases max_pages with
    | zero =>
      exact crawlLoop_maxed parse renderedFetch http start_url 0 pp use_playwright
        cookies context [] [start_url] [] (by simp)
    | succ n =>
      by_cases hp : prefixOk pp start_url = true
      · have h1 := crawlLoop_err parse renderedFetch http start_url (n + 1) pp
          use_playwright cookies context [] [] start_url e [] (by simp) (by simp)
          (same_domain_self start_url) hp he
        exact Eq.trans h1 (crawlLoop_nil parse renderedFetch http start_url (n + 1)
          pp use_playwright cookies context (List.insert start_url []) [])
      · have hp' : prefixOk pp start_url = false := by simpa using hp
        have h1 := crawlLoop_skip_pfx parse renderedFetch http start_url (n + 1) pp
          use_playwright cookies context [] [] start_url [] (by simp) (by simp)
          (same_domain_self start_url) hp'
        exact Eq.trans h1 (crawlLoop_nil parse renderedFetch http start_url (n + 1)
          pp use_playwright cookies context [] [])

/-- Closed witness for `crawl_fetch_failure_nonfatal`: a network-dead
static oracle — the seed fetch fails, the crawl returns no pages, and
the failing step equation holds at the initial state. -/
theorem crawl_fetch_failure_nonfatal_witness :
    (fetch rendered0 http0 "https://ex.com/docs/a" false none none =
      .error "network down") ∧
    crawl parse1 rendered0 http0 "https://ex.com/docs/a" 5 none false none none = [] ∧
    crawlLoop parse1 rendered0 http0 "https://ex.com/docs/a" 5 none false none none
        [] ["https://ex.com/docs/a"] [] =
      crawlLoop parse1 rendered0 http0 "https://ex.com/docs/a" 5 none false none none
        (List.insert "https://ex.com/docs/a" []) [] [] := by
  have h := crawl_fetch_failure_nonfatal parse1 rendered0 http0 "https://ex.com/docs/a"
    5 none false none none
  exact ⟨rfl, h.2 "network down" rfl,
    h.1 [] [] "https://ex.com/docs/a" "network down" [] (by decide) (by decide)
      (same_domain_self _) (by decide) rfl⟩

end WebScraper
